import Mathlib

/-!
Formal model of the snake game loop implemented in
src/src/components/TerminalCard.tsx (the SnakeGame component).

The component state (snake, food, direction, gameOver, score, isPaused) is
embedded as a structure; the timer callback moveSnake together with its
deferred setTimeout updates is embedded as one atomic transition on that
state.  Randomness (Math.floor(Math.random() * GRID)) is embedded as an
explicit list of candidate cells consumed by the generateFood rejection
loop; a result of none means the do-while loop had not terminated after
consuming all supplied candidates.
-/

namespace SnakeGame

/-- Grid width, GRID_WIDTH = 30 in the source. -/
def GRID_WIDTH : Int := 30

/-- Grid height, GRID_HEIGHT = 15 in the source. -/
def GRID_HEIGHT : Int := 15

/-- Initial tick interval in ms, INITIAL_SPEED = 150 in the source. -/
def INITIAL_SPEED : Int := 150

/-- Minimum tick interval in ms, MIN_SPEED = 60 in the source. -/
def MIN_SPEED : Int := 60

/-- Speed decrease per food, SPEED_DECREASE_PER_FOOD = 5 in the source. -/
def SPEED_DECREASE_PER_FOOD : Int := 5

/-- Cell coordinate, type Position = \x7b x: number; y: number \x7d in the source.
Coordinates are integers; they may leave the grid (the wall check tests for
x < 0 etc.), so Int is used. -/
structure Position where
  x : Int
  y : Int
deriving DecidableEq, Repr

instance : Inhabited Position := ⟨⟨0, 0⟩⟩

/-- Movement direction, type Direction = UP | DOWN | LEFT | RIGHT. -/
inductive Direction where
  | UP
  | DOWN
  | LEFT
  | RIGHT
deriving DecidableEq, Repr

/-- The SnakeGame component state: the six useState hooks. -/
structure GameState where
  snake : List Position
  food : Position
  direction : Direction
  gameOver : Bool
  score : Nat
  isPaused : Bool
deriving DecidableEq, Repr

/-- Initial state of the six useState hooks; resetGame restores exactly these
values: snake [(15,7)], food (20,7), direction RIGHT, gameOver false,
score 0, isPaused false. -/
def initialState : GameState :=
  { snake := [⟨15, 7⟩]
    food := ⟨20, 7⟩
    direction := .RIGHT
    gameOver := false
    score := 0
    isPaused := false }

/-- A cell reachable by Math.floor(Math.random() * GRID_WIDTH/HEIGHT):
both coordinates lie inside the grid. -/
def InGrid (p : Position) : Prop :=
  0 ≤ p.x ∧ p.x < GRID_WIDTH ∧ 0 ≤ p.y ∧ p.y < GRID_HEIGHT

instance (p : Position) : Decidable (InGrid p) := by
  unfold InGrid; exact inferInstance

/-- Embedding of generateFood: the do-while rejection loop.  The list rands
holds the successive random candidate cells; the loop returns the first one
not contained in the snake list captured by its closure, and none when every
supplied candidate was rejected (the do-while would still be spinning). -/
def generateFood (snake : List Position) (rands : List Position) : Option Position :=
  rands.find? (fun c => ! snake.contains c)

/-- New head computed by the switch on direction in moveSnake. -/
def newHeadFrom (d : Direction) (head : Position) : Position :=
  match d with
  | .UP => ⟨head.x, head.y - 1⟩
  | .DOWN => ⟨head.x, head.y + 1⟩
  | .LEFT => ⟨head.x - 1, head.y⟩
  | .RIGHT => ⟨head.x + 1, head.y⟩

/-- Wall-collision test of moveSnake: newHead.x < 0 or newHead.x >= GRID_WIDTH
or newHead.y < 0 or newHead.y >= GRID_HEIGHT. -/
def wallCollision (p : Position) : Prop :=
  p.x < 0 ∨ GRID_WIDTH ≤ p.x ∨ p.y < 0 ∨ GRID_HEIGHT ≤ p.y

instance (p : Position) : Decidable (wallCollision p) := by
  unfold wallCollision; exact inferInstance

/-- Final score computed on a collision: prevSnake.length * 10 - 10. -/
def finalScoreOf (snake : List Position) : Int :=
  (snake.length : Int) * 10 - 10

/-- High-score callback of the game-over branches: onHighScore(finalScore) is
invoked exactly when finalScore > highScore; some v records an invocation
with value v. -/
def highScoreReport (highScore finalScore : Int) : Option Int :=
  if highScore < finalScore then some finalScore else none

/-- Embedding of one timer tick: the moveSnake callback of the interval
effect together with the state updates its setTimeout(…, 0) defers (they all
land before the next tick).  The effect returns early when gameOver or
isPaused, so the state is unchanged then.  In the food branch the new food is
produced by the generateFood closure, which captured the PRE-move snake list,
so the candidate cells in rands are tested against g.snake, not against the
grown snake.  The second component is the onHighScore invocation, if any.
A result of none means the generateFood loop exhausted rands. -/
def moveSnake (highScore : Int) (rands : List Position) (g : GameState) :
    Option (GameState × Option Int) :=
  if g.gameOver = true ∨ g.isPaused = true then some (g, none) else
  let newHead := newHeadFrom g.direction g.snake.headI
  if wallCollision newHead then
    some ({ g with gameOver := true }, highScoreReport highScore (finalScoreOf g.snake))
  else if newHead ∈ g.snake then
    some ({ g with gameOver := true }, highScoreReport highScore (finalScoreOf g.snake))
  else if newHead = g.food then
    (generateFood g.snake rands).map fun f =>
      ({ g with snake := newHead :: g.snake, food := f, score := g.score + 10 }, none)
  else
    some ({ g with snake := (newHead :: g.snake).dropLast }, none)

/-- Opposite of a direction, as excluded by the handleKeyDown guards. -/
def opposite : Direction → Direction
  | .UP => .DOWN
  | .DOWN => .UP
  | .LEFT => .RIGHT
  | .RIGHT => .LEFT

/-- Embedding of the direction switch of handleKeyDown: when gameOver the
handler returns before reaching the switch; otherwise the requested direction
is stored unless the current direction is its exact opposite (ArrowUp is
ignored when direction is DOWN, and so on). -/
def setDirection (g : GameState) (req : Direction) : GameState :=
  if g.gameOver = true then g else
  match req with
  | .UP => if g.direction ≠ .DOWN then { g with direction := .UP } else g
  | .DOWN => if g.direction ≠ .UP then { g with direction := .DOWN } else g
  | .LEFT => if g.direction ≠ .RIGHT then { g with direction := .LEFT } else g
  | .RIGHT => if g.direction ≠ .LEFT then { g with direction := .RIGHT } else g

/-- Embedding of the p key branch of handleKeyDown: when gameOver the handler
returns before reaching it; otherwise setIsPaused(prev => !prev). -/
def togglePause (g : GameState) : GameState :=
  if g.gameOver = true then g else { g with isPaused := ! g.isPaused }

/-- Embedding of currentSpeed: Math.max(MIN_SPEED, INITIAL_SPEED -
Math.floor(score / 10) * SPEED_DECREASE_PER_FOOD). -/
def currentSpeed (score : Nat) : Int :=
  max MIN_SPEED (INITIAL_SPEED - ((score / 10 : Nat) : Int) * SPEED_DECREASE_PER_FOOD)

/-- One externally triggered transition of the component: a timer tick (with
in-grid random candidates, as produced by Math.random), a direction key, the
pause key, or the r key, which resetGame accepts only while gameOver. -/
inductive Step : GameState → GameState → Prop where
  | ofMove (highScore : Int) (rands : List Position) (g g' : GameState) (r : Option Int)
      (hr : ∀ c ∈ rands, InGrid c)
      (h : moveSnake highScore rands g = some (g', r)) : Step g g'
  | ofDirection (g : GameState) (d : Direction) : Step g (setDirection g d)
  | ofPause (g : GameState) : Step g (togglePause g)
  | ofReset (g : GameState) (h : g.gameOver = true) : Step g initialState

/-- States reachable from the initial state by Step transitions. -/
inductive Reachable : GameState → Prop where
  | init : Reachable initialState
  | step {g g' : GameState} : Reachable g → Step g g' → Reachable g'

/-- Snake occupying every cell of the 30 by 15 grid. -/
def fullSnake : List Position :=
  (List.range 30).flatMap fun x => (List.range 15).map fun y => ⟨(x : Int), (y : Int)⟩

theorem mem_fullSnake_of_inGrid (c : Position) (h : InGrid c) : c ∈ fullSnake := by
  obtain ⟨x, y⟩ := c
  obtain ⟨hx0, hxw, hy0, hyh⟩ := h
  simp only [GRID_WIDTH, GRID_HEIGHT] at hxw hyh
  dsimp only at hx0 hxw hy0 hyh
  have hx : ((x.toNat : Nat) : Int) = x := Int.toNat_of_nonneg hx0
  have hy : ((y.toNat : Nat) : Int) = y := Int.toNat_of_nonneg hy0
  have hxn : x.toNat < 30 := by omega
  have hyn : y.toNat < 15 := by omega
  rw [← hx, ← hy]
  exact List.mem_flatMap_of_mem (List.mem_range.mpr hxn)
    (List.mem_map_of_mem (fun b : Nat => (⟨(x.toNat : Int), (b : Int)⟩ : Position))
      (List.mem_range.mpr hyn))

/-- C7: a direction request equal to the exact opposite of the current
direction leaves the state unchanged, any other request stores the requested
direction, and setDirection does nothing once the game is Over. -/
theorem setDirection_spec (g : GameState) (req : Direction) :
    (g.gameOver = false → req = opposite g.direction → setDirection g req = g) ∧
    (g.gameOver = false → req ≠ opposite g.direction →
      setDirection g req = { g with direction := req }) ∧
    (g.gameOver = true → setDirection g req = g) := by
  obtain ⟨s, f, d, o, sc, p⟩ := g
  refine ⟨?_, ?_, ?_⟩
  · intro hover hreq
    subst hover
    cases d <;> cases req <;> simp_all [setDirection, opposite]
  · intro hover hreq
    subst hover
    cases d <;> cases req <;> simp_all [setDirection, opposite]
  · intro hover
    subst hover
    cases req <;> rfl

/-- C7 witness: from the initial state (direction RIGHT, not over), a LEFT
request is rejected, an UP request is stored, and with gameOver set a request
does nothing. -/
theorem setDirection_spec_witness :
    setDirection initialState .LEFT = initialState ∧
    setDirection initialState .UP = { initialState with direction := .UP } ∧
    setDirection { initialState with gameOver := true } .UP =
      { initialState with gameOver := true } :=
  ⟨(setDirection_spec initialState .LEFT).1 rfl rfl,
   (setDirection_spec initialState .UP).2.1 rfl (by decide),
   (setDirection_spec { initialState with gameOver := true } .UP).2.2 rfl⟩

/-- C8: currentSpeed equals max(60, 150 - floor(score/10)*5), never drops
below 60, and is monotonically non-increasing in the score. -/
theorem currentSpeed_spec (s t : Nat) (hst : s ≤ t) :
    currentSpeed s = max 60 (150 - ((s / 10 : Nat) : Int) * 5) ∧
    60 ≤ currentSpeed s ∧
    currentSpeed t ≤ currentSpeed s := by
  refine ⟨rfl, ?_, ?_⟩
  · unfold currentSpeed MIN_SPEED
    exact le_max_left _ _
  · unfold currentSpeed MIN_SPEED INITIAL_SPEED SPEED_DECREASE_PER_FOOD
    apply max_le_max le_rfl
    apply sub_le_sub_left
    have hdiv : (s / 10 : Nat) ≤ (t / 10 : Nat) := Nat.div_le_div_right hst
    exact mul_le_mul_of_nonneg_right (by exact_mod_cast hdiv) (by norm_num)

/-- C8 witness: at scores 0 and 310 the formula gives 150 and the 60 floor,
and the speed at 310 is no larger than at 0. -/
theorem currentSpeed_spec_witness :
    currentSpeed 0 = 150 ∧ 60 ≤ currentSpeed 0 ∧ currentSpeed 310 ≤ currentSpeed 0 := by
  obtain ⟨h1, h2, h3⟩ := currentSpeed_spec 0 310 (by decide)
  exact ⟨by rw [h1]; decide, h2, h3⟩

/-- C9: togglePause flips the paused flag while the game is not Over, does
nothing when Over, and moveSnake returns the state unchanged (with no
high-score report) whenever paused or over. -/
theorem togglePause_spec (hs : Int) (rands : List Position) (g : GameState) :
    (g.gameOver = false → togglePause g = { g with isPaused := ! g.isPaused }) ∧
    (g.gameOver = true → togglePause g = g) ∧
    (g.isPaused = true ∨ g.gameOver = true → moveSnake hs rands g = some (g, none)) := by
  refine ⟨fun h => by simp [togglePause, h], fun h => by simp [togglePause, h], fun h => ?_⟩
  unfold moveSnake
  rcases h with h | h <;> simp [h]

/-- C9 witness: pausing the initial state sets isPaused, and a tick on the
paused state changes nothing. -/
theorem togglePause_spec_witness :
    togglePause initialState = { initialState with isPaused := true } ∧
    moveSnake 0 [] { initialState with isPaused := true } =
      some ({ initialState with isPaused := true }, none) :=
  ⟨(togglePause_spec 0 [] initialState).1 rfl,
   (togglePause_spec 0 [] { initialState with isPaused := true }).2.2 (Or.inl rfl)⟩

/-- C10: from the initial direction RIGHT, requesting UP and then LEFT before
the next tick stores LEFT, the exact opposite of RIGHT, since each request is
validated only against the most recently stored direction. -/
theorem double_turn_reverses :
    initialState.direction = .RIGHT ∧
    (setDirection (setDirection initialState .UP) .LEFT).direction =
      opposite initialState.direction := by decide

/-- C2: the claim that the food-placement search is bounded fails on the
code: when the snake occupies every grid cell, generateFood rejects every
in-grid candidate, so however many random candidates the do-while loop draws
it never exits. -/
theorem generateFood_no_retry_bound (rands : List Position)
    (h : ∀ c ∈ rands, InGrid c) : generateFood fullSnake rands = none := by
  unfold generateFood
  rw [List.find?_eq_none]
  intro c hc
  have hmem := mem_fullSnake_of_inGrid c (h c hc)
  simp [hmem]

/-- C2 witness: one in-grid candidate, rejected. -/
theorem generateFood_no_retry_bound_witness :
    generateFood fullSnake [⟨0, 0⟩] = none :=
  generateFood_no_retry_bound [⟨0, 0⟩] (by decide)

/-- C5: on any wall or self collision while running, moveSnake keeps snake,
food, score, direction and paused flag, sets only gameOver, and reports a
final score of length*10 - 10 to onHighScore exactly when that value strictly
exceeds the held high score. -/
theorem collision_final_score (hs : Int) (rands : List Position) (g : GameState)
    (hover : g.gameOver = false) (hp : g.isPaused = false)
    (hc : wallCollision (newHeadFrom g.direction g.snake.headI) ∨
          newHeadFrom g.direction g.snake.headI ∈ g.snake) :
    moveSnake hs rands g =
      some ({ g with gameOver := true },
        if hs < (g.snake.length : Int) * 10 - 10 then
          some ((g.snake.length : Int) * 10 - 10)
        else none) := by
  unfold moveSnake
  rw [if_neg (by simp [hover, hp])]
  by_cases hw : wallCollision (newHeadFrom g.direction g.snake.headI)
  · rw [if_pos hw]
    rfl
  · rw [if_neg hw, if_pos (hc.resolve_left hw)]
    rfl

/-- C5 witness: a fresh-start snake of length 1 at (29,7) moving RIGHT hits
the wall at once and reports final score 1*10 - 10 = 0, which does not exceed
a held high score of 0, so onHighScore is not invoked. -/
theorem collision_final_score_witness :
    moveSnake 0 [] { initialState with snake := [⟨29, 7⟩] } =
      some ({ initialState with snake := [⟨29, 7⟩], gameOver := true },
        if (0 : Int) < (([⟨29, 7⟩] : List Position).length : Int) * 10 - 10 then
          some ((([⟨29, 7⟩] : List Position).length : Int) * 10 - 10)
        else none) :=
  collision_final_score 0 [] { initialState with snake := [⟨29, 7⟩] } rfl rfl
    (Or.inl (by decide))

/-- C4: from a running state, moveSnake sets gameOver exactly when the new
head leaves the grid or lies on the pre-move snake; on that transition only
the gameOver flag changes (snake, food, direction, score, paused are kept)
beside the high-score report. -/
theorem over_transition_iff (hs : Int) (rands : List Position) (g : GameState)
    (hover : g.gameOver = false) (hp : g.isPaused = false) :
    ((wallCollision (newHeadFrom g.direction g.snake.headI) ∨
        newHeadFrom g.direction g.snake.headI ∈ g.snake) →
      moveSnake hs rands g =
        some ({ g with gameOver := true },
          highScoreReport hs (finalScoreOf g.snake))) ∧
    (¬ (wallCollision (newHeadFrom g.direction g.snake.headI) ∨
        newHeadFrom g.direction g.snake.headI ∈ g.snake) →
      ∀ g' r, moveSnake hs rands g = some (g', r) → g'.gameOver = false) := by
  constructor
  · intro hc
    unfold moveSnake
    rw [if_neg (by simp [hover, hp])]
    by_cases hw : wallCollision (newHeadFrom g.direction g.snake.headI)
    · rw [if_pos hw]
    · rw [if_neg hw, if_pos (hc.resolve_left hw)]
  · intro hc g' r h
    push_neg at hc
    obtain ⟨hw, hmem⟩ := hc
    unfold moveSnake at h
    rw [if_neg (by simp [hover, hp]), if_neg hw, if_neg hmem] at h
    by_cases hf : newHeadFrom g.direction g.snake.headI = g.food
    · rw [if_pos hf, Option.map_eq_some'] at h
      obtain ⟨f, _, hfa⟩ := h
      simp only [Prod.mk.injEq] at hfa
      rw [← hfa.1]
      exact hover
    · rw [if_neg hf, Option.some.injEq, Prod.mk.injEq] at h
      rw [← h.1]
      exact hover

/-- C4 witness: at a length-1 snake at (29,7) moving RIGHT the wall branch
fires with the state otherwise unchanged, and the first tick from the initial
state does not set gameOver. -/
theorem over_transition_iff_witness :
    moveSnake 0 [] { initialState with snake := [⟨29, 7⟩] } =
      some ({ initialState with snake := [⟨29, 7⟩], gameOver := true },
        highScoreReport 0 (finalScoreOf [⟨29, 7⟩])) ∧
    ({ initialState with snake := [⟨16, 7⟩] } : GameState).gameOver = false :=
  ⟨(over_transition_iff 0 [] { initialState with snake := [⟨29, 7⟩] } rfl rfl).1
      (Or.inl (by decide)),
   (over_transition_iff 0 [] initialState rfl rfl).2 (by decide)
      { initialState with snake := [⟨16, 7⟩] } none (by decide)⟩

/-- C6: on a food collision (running, no wall or self collision, new head on
the food) where the generateFood loop yields f, the new head is prepended
with no tail removal, the food becomes f, the score grows by exactly 10, and
the snake length grows by exactly 1. -/
theorem food_tick_grows (hs : Int) (rands : List Position) (g : GameState) (f : Position)
    (hover : g.gameOver = false) (hp : g.isPaused = false)
    (hw : ¬ wallCollision (newHeadFrom g.direction g.snake.headI))
    (hself : newHeadFrom g.direction g.snake.headI ∉ g.snake)
    (hfood : newHeadFrom g.direction g.snake.headI = g.food)
    (hgen : generateFood g.snake rands = some f) :
    moveSnake hs rands g =
      some ({ g with snake := newHeadFrom g.direction g.snake.headI :: g.snake,
                     food := f, score := g.score + 10 }, none) ∧
    (newHeadFrom g.direction g.snake.headI :: g.snake).length = g.snake.length + 1 := by
  constructor
  · unfold moveSnake
    rw [if_neg (by simp [hover, hp]), if_neg hw, if_neg hself, if_pos hfood, hgen]
    rfl
  · exact List.length_cons _ _

/-- C6 witness: the snake [(19,7)] heading RIGHT reaches the food (20,7);
with the generateFood loop yielding (0,0) the tick prepends (20,7), keeps the
tail, and raises the score from 0 to 10. -/
theorem food_tick_grows_witness :
    moveSnake 0 [⟨0, 0⟩] { initialState with snake := [⟨19, 7⟩] } =
      some ({ initialState with
                snake := [⟨20, 7⟩, ⟨19, 7⟩]
                food := ⟨0, 0⟩
                score := 10 }, none) :=
  (food_tick_grows 0 [⟨0, 0⟩] { initialState with snake := [⟨19, 7⟩] } ⟨0, 0⟩
    rfl rfl (by decide) (by decide) (by decide) (by decide)).1

theorem setDirection_snake (g : GameState) (d : Direction) :
    (setDirection g d).snake = g.snake := by
  cases d <;> simp only [setDirection] <;> split_ifs <;> rfl

theorem togglePause_snake (g : GameState) : (togglePause g).snake = g.snake := by
  unfold togglePause
  split_ifs <;> rfl

theorem moveSnake_preserves_snake (hs : Int) (rands : List Position)
    (g g' : GameState) (r : Option Int)
    (h : moveSnake hs rands g = some (g', r))
    (hne : g.snake ≠ []) (hnd : g.snake.Nodup) :
    g'.snake ≠ [] ∧ g'.snake.Nodup := by
  simp only [moveSnake] at h
  split_ifs at h with h1 h2 h3 h4
  · simp only [Option.some.injEq, Prod.mk.injEq] at h
    obtain ⟨rfl, rfl⟩ := h
    exact ⟨hne, hnd⟩
  · simp only [Option.some.injEq, Prod.mk.injEq] at h
    obtain ⟨rfl, rfl⟩ := h
    exact ⟨hne, hnd⟩
  · simp only [Option.some.injEq, Prod.mk.injEq] at h
    obtain ⟨rfl, rfl⟩ := h
    exact ⟨hne, hnd⟩
  · rw [Option.map_eq_some'] at h
    obtain ⟨f, _, hfa⟩ := h
    simp only [Prod.mk.injEq] at hfa
    obtain ⟨rfl, rfl⟩ := hfa
    exact ⟨List.cons_ne_nil _ _, List.nodup_cons.mpr ⟨h3, hnd⟩⟩
  · simp only [Option.some.injEq, Prod.mk.injEq] at h
    obtain ⟨rfl, rfl⟩ := h
    constructor
    · rw [← List.length_pos, List.length_dropLast, List.length_cons]
      simpa [List.length_pos] using hne
    · exact (List.dropLast_sublist _).nodup (List.nodup_cons.mpr ⟨h3, hnd⟩)

theorem reachable_snake_invariant (g : GameState) (h : Reachable g) :
    g.snake ≠ [] ∧ g.snake.Nodup := by
  induction h with
  | init => exact ⟨by simp [initialState], by simp [initialState]⟩
  | step hr hstep ih =>
      cases hstep with
      | ofMove hs1 rnds gg gg1 rr hin hmv =>
          exact moveSnake_preserves_snake hs1 rnds _ _ rr hmv ih.1 ih.2
      | ofDirection gg d =>
          rw [setDirection_snake]
          exact ih
      | ofPause gg =>
          rw [togglePause_snake]
          exact ih
      | ofReset gg ha =>
          exact ⟨by simp [initialState], by simp [initialState]⟩

/-- C3: for every reachable state that is not Over, no two snake segments
occupy the same coordinate: every transition (tick in all four branches,
setDirection, togglePause, reset) preserves distinctness of the snake
cells. -/
theorem reachable_snake_nodup (g : GameState) (h : Reachable g)
    (_hover : g.gameOver = false) : g.snake.Nodup :=
  (reachable_snake_invariant g h).2

/-- C3 witness: the initial state is reachable, not over, and its snake has
distinct cells. -/
theorem reachable_snake_nodup_witness : initialState.snake.Nodup :=
  reachable_snake_nodup initialState Reachable.init rfl

/-- State reached from the initial state after five ticks when the food
collision regenerates the food on the just-eaten cell. -/
def staleFoodState : GameState :=
  { snake := [⟨20, 7⟩, ⟨19, 7⟩]
    food := ⟨20, 7⟩
    direction := .RIGHT
    gameOver := false
    score := 10
    isPaused := false }

/-- C1: the food invariant fails on the code: generateFood tests candidates
against the pre-move snake captured by its closure, never against the
just-prepended head, so after the food collision on the fifth tick from the
initial state the regenerated food can land exactly on the new head.  The
resulting state is reachable, alive, and has its food on a snake segment. -/
theorem food_on_snake_reachable :
    Reachable staleFoodState ∧
    staleFoodState.gameOver = false ∧
    staleFoodState.food ∈ staleFoodState.snake := by
  refine ⟨?_, rfl, by decide⟩
  have s1 : Step initialState ⟨[⟨16, 7⟩], ⟨20, 7⟩, .RIGHT, false, 0, false⟩ :=
    .ofMove 0 [] _ _ none (by decide) (by decide)
  have s2 : Step ⟨[⟨16, 7⟩], ⟨20, 7⟩, .RIGHT, false, 0, false⟩
      ⟨[⟨17, 7⟩], ⟨20, 7⟩, .RIGHT, false, 0, false⟩ :=
    .ofMove 0 [] _ _ none (by decide) (by decide)
  have s3 : Step ⟨[⟨17, 7⟩], ⟨20, 7⟩, .RIGHT, false, 0, false⟩
      ⟨[⟨18, 7⟩], ⟨20, 7⟩, .RIGHT, false, 0, false⟩ :=
    .ofMove 0 [] _ _ none (by decide) (by decide)
  have s4 : Step ⟨[⟨18, 7⟩], ⟨20, 7⟩, .RIGHT, false, 0, false⟩
      ⟨[⟨19, 7⟩], ⟨20, 7⟩, .RIGHT, false, 0, false⟩ :=
    .ofMove 0 [] _ _ none (by decide) (by decide)
  have s5 : Step ⟨[⟨19, 7⟩], ⟨20, 7⟩, .RIGHT, false, 0, false⟩ staleFoodState :=
    .ofMove 0 [⟨20, 7⟩] _ _ none (by decide) (by decide)
  exact ((((Reachable.init.step s1).step s2).step s3).step s4).step s5

end SnakeGame
